import Mathlib

/-!
Verification development for the simple-folder-backup repository.

The Go sources (utils.go, deduplication.go, scheduler.go, status.go) are
shallowly embedded below.  Wall-clock instants appearing in directory names
are modelled as calendar tuples (`DateTime`); instants used by the scheduler
arithmetic are modelled as integers where `0` stands for Go's zero
`time.Time`.  Filesystem and hashing effects are passed in explicitly:
an `Except String` value stands for a Go `(value, error)` pair and an
`Option String` argument stands for the error result of an I/O step.
-/

namespace SimpleFolderBackup

/-- A wall-clock instant at second granularity, as the local-time calendar
tuple that `time.Time.Format` exposes to the naming code. -/
structure DateTime where
  year : Nat
  month : Nat
  day : Nat
  hour : Nat
  minute : Nat
  second : Nat
deriving DecidableEq, Repr

/-- Go's zero `time.Time`: January 1, year 1, 00:00:00. -/
def zeroTime : DateTime := ⟨1, 1, 1, 0, 0, 0⟩

/-- Chronological strict order on instants (`t1.Before(t2)` for local-time
calendar tuples): lexicographic on year, month, day, hour, minute, second. -/
def dtLtP (a b : DateTime) : Prop :=
  a.year < b.year ∨ (a.year = b.year ∧
    (a.month < b.month ∨ (a.month = b.month ∧
      (a.day < b.day ∨ (a.day = b.day ∧
        (a.hour < b.hour ∨ (a.hour = b.hour ∧
          (a.minute < b.minute ∨ (a.minute = b.minute ∧
            a.second < b.second)))))))))

instance (a b : DateTime) : Decidable (dtLtP a b) := by
  unfold dtLtP; exact inferInstance

/-- `t.After(u)` from Go: `u` is chronologically strictly before `t`. -/
def dtAfter (t u : DateTime) : Prop := dtLtP u t

instance (t u : DateTime) : Decidable (dtAfter t u) := by
  unfold dtAfter; exact inferInstance

/-- Non-strict chronological order, used to express sortedness of the
retention ordering (`sort.Slice` with `Before` as the strict comparator). -/
def dtLeP (a b : DateTime) : Prop := ¬ dtLtP b a

instance (a b : DateTime) : Decidable (dtLeP a b) := by
  unfold dtLeP; exact inferInstance

theorem dtLtP_irrefl (a : DateTime) : ¬ dtLtP a a := by
  unfold dtLtP; omega

theorem dtLtP_trans {a b c : DateTime} (hab : dtLtP a b) (hbc : dtLtP b c) :
    dtLtP a c := by
  unfold dtLtP at *; omega

theorem dtLtP_of_lt_of_not_lt {a b c : DateTime} (hab : dtLtP a b)
    (hcb : ¬ dtLtP c b) : dtLtP a c := by
  unfold dtLtP at *; omega

/-- The digit character for a decimal digit, as produced by Go's
zero-padded numeric formatting. -/
def toDigit (n : Nat) : Char :=
  match n with
  | 0 => '0'
  | 1 => '1'
  | 2 => '2'
  | 3 => '3'
  | 4 => '4'
  | 5 => '5'
  | 6 => '6'
  | 7 => '7'
  | 8 => '8'
  | _ => '9'

/-- Two-digit zero-padded rendering (layout components `02`, `01`, `15`,
`04`, `05` of the Go reference time). -/
def pad2 (n : Nat) : List Char := [toDigit (n / 10), toDigit (n % 10)]

/-- Four-digit zero-padded rendering (layout component `2006`). -/
def pad4 (n : Nat) : List Char :=
  [toDigit (n / 1000), toDigit (n / 100 % 10), toDigit (n / 10 % 10), toDigit (n % 10)]

/-- `timestamp.Format(BackupTimestampFormat)` with
`BackupTimestampFormat = "02-01-2006_15-04-05"` (DD-MM-YYYY_HH-MM-SS),
from utils.go. -/
def formatTimestamp (t : DateTime) : List Char :=
  pad2 t.day ++ '-' :: pad2 t.month ++ '-' :: pad4 t.year ++
    '_' :: pad2 t.hour ++ '-' :: pad2 t.minute ++ '-' :: pad2 t.second

/-- Drop trailing path separators, first step of `filepath.Base`. -/
def stripTrailingSep (l : List Char) : List Char :=
  (l.reverse.dropWhile (fun c => c = '/')).reverse

/-- The final path component, second step of `filepath.Base`. -/
def lastComponent (l : List Char) : List Char :=
  (l.reverse.takeWhile (fun c => c ≠ '/')).reverse

/-- `getSourceFolderName` from utils.go: `filepath.Base(sourcePath)`. -/
def getSourceFolderName (sourcePath : String) : String :=
  if sourcePath = "" then "."
  else
    let l := stripTrailingSep sourcePath.toList
    if l = [] then "/" else ⟨lastComponent l⟩

/-- `generateBackupDirName` from utils.go:
`timestamp.Format(BackupTimestampFormat) + "_" + sourceFolderName`. -/
def generateBackupDirName (sourcePath : String) (timestamp : DateTime) : String :=
  ⟨formatTimestamp timestamp ++ '_' :: (getSourceFolderName sourcePath).toList⟩

/-- `isBackupDirectory` from utils.go: minimum length
`len(sourceFolderName) + 20`, and the name must end with the source folder
name (`dirName[len(dirName)-len(sourceFolderName):] == sourceFolderName`). -/
def isBackupDirectory (dirName sourceFolderName : String) : Bool :=
  if dirName.length < sourceFolderName.length + 20 then false
  else dirName.toList.drop (dirName.length - sourceFolderName.length)
    == sourceFolderName.toList

/-- Leap-year rule used by Go's `time` package date validation. -/
def isLeapYear (y : Nat) : Bool :=
  y % 4 = 0 && (y % 100 ≠ 0 || y % 400 = 0)

/-- Days in a month, used by Go's `time.Parse` day-range validation. -/
def daysInMonth (month year : Nat) : Nat :=
  if month = 2 then (if isLeapYear year then 29 else 28)
  else if month = 4 ∨ month = 6 ∨ month = 9 ∨ month = 11 then 30
  else 31

/-- Numeric value of a digit character. -/
def digitVal (c : Char) : Nat := c.toNat - 48

/-- `time.ParseInLocation("02-01-2006_15-04-05", s, time.Local)`: the input
must be exactly the 19-character DD-MM-YYYY_HH-MM-SS shape with in-range
fields, otherwise parsing errors (modelled as `none`). -/
def parseTs (l : List Char) : Option DateTime :=
  match l with
  | [d1, d2, s1, m1, m2, s2, y1, y2, y3, y4, s3, h1, h2, s4, n1, n2, s5, c1, c2] =>
    if d1.isDigit && d2.isDigit && m1.isDigit && m2.isDigit &&
       y1.isDigit && y2.isDigit && y3.isDigit && y4.isDigit &&
       h1.isDigit && h2.isDigit && n1.isDigit && n2.isDigit &&
       c1.isDigit && c2.isDigit &&
       s1 == '-' && s2 == '-' && s3 == '_' && s4 == '-' && s5 == '-' then
      let day := digitVal d1 * 10 + digitVal d2
      let month := digitVal m1 * 10 + digitVal m2
      let year := digitVal y1 * 1000 + digitVal y2 * 100 + digitVal y3 * 10 + digitVal y4
      let hour := digitVal h1 * 10 + digitVal h2
      let minute := digitVal n1 * 10 + digitVal n2
      let second := digitVal c1 * 10 + digitVal c2
      if 1 ≤ month && month ≤ 12 && 1 ≤ day && day ≤ daysInMonth month year &&
         hour ≤ 23 && minute ≤ 59 && second ≤ 59 then
        some ⟨year, month, day, hour, minute, second⟩
      else none
    else none
  | _ => none

/-- `parseBackupTimestamp` from utils.go.  A name that fails
`isBackupDirectory` yields Go's `(time.Time{}, nil)` and a malformed
timestamp part yields a parse error; both are skipped by every caller, so
both are modelled as `none`. -/
def parseBackupTimestamp (dirName sourceFolderName : String) : Option DateTime :=
  if isBackupDirectory dirName sourceFolderName then
    parseTs (dirName.toList.take (dirName.length - sourceFolderName.length - 1))
  else none

/-- One entry of `os.ReadDir(destination)`: its name, whether it is a
directory, and its filesystem modification time (`Info().ModTime()`). -/
structure DirEntry where
  name : String
  isDir : Bool
  modTime : DateTime
deriving DecidableEq, Repr

/-- Loop body of `findLastBackupTime` from status.go: a qualifying entry
whose name parses to a non-zero timestamp replaces the accumulator when that
parsed timestamp is `After` it. -/
def lastBackupStep (sourceFolderName : String) (acc : DateTime) (e : DirEntry) :
    DateTime :=
  if e.isDir && isBackupDirectory e.name sourceFolderName then
    match parseBackupTimestamp e.name sourceFolderName with
    | some t => if t ≠ zeroTime then (if dtAfter t acc then t else acc) else acc
    | none => acc
  else acc

/-- `findLastBackupTime` from status.go, over the listed destination
entries; returns `zeroTime` when nothing qualifies. -/
def findLastBackupTime (entries : List DirEntry) (sourceFolderName : String) :
    DateTime :=
  entries.foldl (lastBackupStep sourceFolderName) zeroTime

/-- Modelled from the spec, section 4.3 (`latestSnapshotTime`): the maximum
of the qualifying snapshot directories' own last-modified timestamps (not
parsed names), `zeroTime` standing for "none".  This definition follows the
spec's words to be compared against `findLastBackupTime`. -/
def latestSnapshotTimeSpec (entries : List DirEntry) (sourceFolderName : String) :
    DateTime :=
  entries.foldl (fun acc e =>
    if e.isDir && isBackupDirectory e.name sourceFolderName && dtAfter e.modTime acc
    then e.modTime else acc) zeroTime

/-- The non-zero timestamps parsed from the names of qualifying entries,
the quantity `findLastBackupTime` actually maximises. -/
def parsedBackupTimes (entries : List DirEntry) (sourceFolderName : String) :
    List DateTime :=
  entries.filterMap (fun e =>
    if e.isDir && isBackupDirectory e.name sourceFolderName then
      match parseBackupTimestamp e.name sourceFolderName with
      | some t => if t ≠ zeroTime then some t else none
      | none => none
    else none)

/-- Deletion loop of `cleanupOldBackups` from utils.go: `os.RemoveAll`
oldest-first over the selected entries, failing fast on the first error.
`removeErr` gives the outcome of removing each directory; on success the
list of deleted entries is returned. -/
def deleteOldest (removeErr : String → Option String) :
    List DirEntry → Except String (List DirEntry)
  | [] => .ok []
  | e :: rest =>
    match removeErr e.name with
    | some err => .error err
    | none =>
      match deleteOldest removeErr rest with
      | .error err => .error err
      | .ok l => .ok (e :: l)

/-- `cleanupOldBackups` from utils.go: filter qualifying backup directories,
no-op when within the rotation limit, otherwise sort by modification time
ascending and delete the oldest `count - rotationCount` entries. -/
def cleanupOldBackups (entries : List DirEntry) (sourceFolderName : String)
    (rotationCount : Nat) (removeErr : String → Option String) :
    Except String (List DirEntry) :=
  let backupDirs := entries.filter
    (fun e => e.isDir && isBackupDirectory e.name sourceFolderName)
  if backupDirs.length ≤ rotationCount then .ok []
  else
    let sorted := List.insertionSort (fun a b => dtLeP a.modTime b.modTime) backupDirs
    deleteOldest removeErr (sorted.take (sorted.length - rotationCount))

/-- `HashStatus` from deduplication.go.  The action time is an integer
instant where `0` stands for Go's zero `time.Time`. -/
structure HashStatus where
  lastHash : String
  lastActionType : String
  lastActionTime : Int
deriving DecidableEq, Repr

/-- The in-memory `hashes` map of the `HashManager`. -/
def HashStore : Type := String → Option HashStatus

/-- The empty store a first run starts from. -/
def emptyStore : HashStore := fun _ => none

/-- `getLastActionType` from deduplication.go: empty string when no record
exists. -/
def getLastActionType (store : HashStore) (configName : String) : String :=
  match store configName with
  | some st => st.lastActionType
  | none => ""

/-- `getLastActionTime` from deduplication.go: zero time when no record
exists. -/
def getLastActionTime (store : HashStore) (configName : String) : Int :=
  match store configName with
  | some st => st.lastActionTime
  | none => 0

/-- `shouldSkipBackup` from deduplication.go.  `currentHash` is the result
of `calculateDirectoryHash(sourcePath)` (`.error` = hash failure, which Go
returns as `(false, err)`); with no prior record the answer is `false`,
otherwise it is the comparison with the stored hash. -/
def shouldSkipBackup (currentHash : Except String String) (store : HashStore)
    (configName : String) : Except String Bool :=
  match currentHash with
  | .error e => .error e
  | .ok h =>
    match store configName with
    | none => .ok false
    | some st => .ok (h == st.lastHash)

/-- `recordAction` from deduplication.go.  `currentHash` is the fingerprint
recomputed at record time; on hash failure the error is returned before any
mutation.  On success the in-memory entry is overwritten and `saveToFile`
persists the new store (`file` holds the durable file's content, `none`
meaning the file does not exist); a failed save leaves the file unchanged
but the in-memory update stands.  Result: (store, file, returned error). -/
def recordAction (currentHash : Except String String) (saveErr : Option String)
    (store : HashStore) (file : Option HashStore)
    (configName actionType : String) (now : Int) :
    HashStore × Option HashStore × Option String :=
  match currentHash with
  | .error e => (store, file, some e)
  | .ok h =>
    let store1 : HashStore :=
      fun n => if n = configName then some ⟨h, actionType, now⟩ else store n
    match saveErr with
    | some e => (store1, file, some e)
    | none => (store1, some store1, none)

/-- `loadFromFile` from deduplication.go.  `fileExists` is the `os.Stat`
check, `readErr` the `os.ReadFile` outcome, and `parsed` the
`json.Unmarshal` outcome (`none` = malformed file).  Result: (store,
returned error). -/
def loadFromFile (fileExists : Bool) (readErr : Option String)
    (parsed : Option HashStore) (hashes : HashStore) :
    HashStore × Option String :=
  if fileExists = false then (hashes, none)
  else
    match readErr with
    | some e => (hashes, some e)
    | none =>
      match parsed with
      | none => (hashes, some "unmarshal: malformed JSON")
      | some m => (m, none)

/-- The shared status table of status.go: per config name, the last backup
time and the next backup time (integer instants). -/
def StatusTable : Type := String → Option (Int × Int)

/-- `updateBackupCompleted` from status.go: `last = now`,
`next = now + scheduleMinutes minutes` (instants counted in seconds). -/
def updateBackupCompleted (status : StatusTable) (configName : String)
    (now : Int) (scheduleMinutes : Int) : StatusTable :=
  fun n => if n = configName then some (now, now + scheduleMinutes * 60) else status n

/-- The shared mutable state touched by one backup tick: the status table,
the in-memory hash store and the durable hash file. -/
structure SysState where
  status : StatusTable
  store : HashStore
  file : Option HashStore

/-- The skip-vs-copy outcome of the decision step in `executeBackup`. -/
inductive BackupAction where
  | copy : BackupAction
  | skip : BackupAction
deriving DecidableEq, Repr

/-- Phase 1 of `executeBackup` (utils.go) together with `shouldSkipBackup`:
hash disabled or hash failure or no/stale record means copy; only a
successful hash equal to the stored one means skip. -/
def backupDecision (hashEnabled : Bool) (currentHash : Except String String)
    (store : HashStore) (configName : String) : BackupAction :=
  if hashEnabled then
    match shouldSkipBackup currentHash store configName with
    | .error _ => .copy
    | .ok true => .skip
    | .ok false => .copy
  else .copy

/-- `performBackup` from utils.go.  `mkdirErr`, `copyErr`, `cleanupErr` are
the outcomes of `os.MkdirAll`, `copyDir` and `cleanupOldBackups`;
`recordHash`/`saveErr` feed the final `recordAction`.  Returns the state
after the tick and the error returned to the caller; a `recordAction`
failure is logged and swallowed (the function still returns `none`). -/
def performBackup (configName : String) (scheduleMinutes : Int)
    (hashEnabled : Bool) (mkdirErr copyErr cleanupErr : Option String)
    (recordHash : Except String String) (saveErr : Option String)
    (now : Int) (s : SysState) : SysState × Option String :=
  match mkdirErr with
  | some e => (s, some ("failed to create backup directory: " ++ e))
  | none =>
    match copyErr with
    | some e => (s, some ("failed to copy files: " ++ e))
    | none =>
      match cleanupErr with
      | some e => (s, some ("failed to cleanup old backups: " ++ e))
      | none =>
        let s1 : SysState :=
          { s with status := updateBackupCompleted s.status configName now scheduleMinutes }
        if hashEnabled then
          let r := recordAction recordHash saveErr s1.store s1.file configName "backup" now
          ({ s1 with store := r.1, file := r.2.1 }, none)
        else (s1, none)

/-- `executeBackup` from utils.go: decide skip-vs-copy, then either record
the skip and update the status, or perform the backup.  `decisionHash` and
`recordHash` are the two `calculateDirectoryHash` computations of the tick. -/
def executeBackup (configName : String) (scheduleMinutes : Int)
    (hashEnabled : Bool) (decisionHash recordHash : Except String String)
    (saveErr mkdirErr copyErr cleanupErr : Option String)
    (now : Int) (s : SysState) : SysState × Option String :=
  match backupDecision hashEnabled decisionHash s.store configName with
  | .skip =>
    let r := recordAction recordHash saveErr s.store s.file configName "skipped" now
    let s1 : SysState := { s with store := r.1, file := r.2.1 }
    ({ s1 with status := updateBackupCompleted s1.status configName now scheduleMinutes }, none)
  | .copy =>
    performBackup configName scheduleMinutes hashEnabled mkdirErr copyErr
      cleanupErr recordHash saveErr now s

/-- Startup recovery of scheduler.go (`startBackupScheduler`, lines 67-102):
the effective last-action time.  `lastBackupTime` is the
`findLastBackupTime` result and `currentHash` the startup
`calculateDirectoryHash`; instants are integers with `0` = zero time. -/
def computeEffectiveLastTime (hashEnabled : Bool) (store : HashStore)
    (configName : String) (currentHash : Except String String)
    (lastBackupTime : Int) : Int :=
  if hashEnabled then
    if getLastActionType store configName = "skipped" ∧
       getLastActionTime store configName ≠ 0 then
      match shouldSkipBackup currentHash store configName with
      | .error _ => lastBackupTime
      | .ok true => getLastActionTime store configName
      | .ok false => 0
    else lastBackupTime
  else lastBackupTime

/-- First-backup delay computation of scheduler.go (lines 104-121). -/
def firstBackupDelay (effectiveLastTime now scheduleInterval : Int) : Int :=
  if effectiveLastTime = 0 then 0
  else if now - effectiveLastTime ≥ scheduleInterval then 0
  else scheduleInterval - (now - effectiveLastTime)

/-- An empty status table / store / file, the state a first run starts in. -/
def sampleState : SysState := ⟨fun _ => none, emptyStore, none⟩

/-- C9: a directory entry qualifies as a snapshot for a source folder name
exactly when it is a directory, its name ends with the source folder name,
and the prefix remaining after stripping the source folder name and one
separator is at least as long as a full timestamp encoding (19 characters). -/
theorem backupDirectory_qualification (isDir : Bool) (dirName sourceFolderName : String) :
    (isDir && isBackupDirectory dirName sourceFolderName) = true ↔
      isDir = true ∧ sourceFolderName.toList <:+ dirName.toList ∧
        19 ≤ (dirName.toList.take (dirName.length - sourceFolderName.length - 1)).length := by
  have hd : dirName.length = dirName.toList.length := rfl
  have hs : sourceFolderName.length = sourceFolderName.toList.length := rfl
  rw [Bool.and_eq_true]
  unfold isBackupDirectory
  constructor
  · rintro ⟨h1, h2⟩
    refine ⟨h1, ?_, ?_⟩
    · split at h2
      · cases h2
      · rw [beq_iff_eq] at h2
        rw [List.suffix_iff_eq_drop]
        exact h2.symm
    · split at h2
      · cases h2
      · rename_i hlen
        rw [List.length_take, ← hd]
        omega
  · rintro ⟨h1, hsuf, hlen⟩
    refine ⟨h1, ?_⟩
    have hsl : sourceFolderName.toList.length ≤ dirName.toList.length :=
      hsuf.length_le
    rw [List.length_take, ← hd] at hlen
    rw [if_neg (by omega)]
    rw [List.suffix_iff_eq_drop] at hsuf
    rw [beq_iff_eq]
    exact hsuf.symm

/-- C7: loading the durable hash file treats a missing file as a normal
first run (the empty store is kept and no error is returned), while a
present but malformed file is a load error surfaced to the caller with the
store left unpopulated. -/
theorem loadFromFile_missing_vs_malformed :
    (∀ readErr parsed, loadFromFile false readErr parsed emptyStore = (emptyStore, none)) ∧
    (∀ hashes, loadFromFile true none none hashes =
      (hashes, some "unmarshal: malformed JSON")) ∧
    (∀ hashes m, loadFromFile true none (some m) hashes = (m, none)) :=
  ⟨fun _ _ => rfl, fun _ => rfl, fun _ _ => rfl⟩

/-- C10: when the fingerprint recomputed at record time fails,
`recordAction` returns that error and leaves the in-memory store and the
durable file exactly as they were. -/
theorem recordAction_hash_failure_unchanged (e : String) (saveErr : Option String)
    (store : HashStore) (file : Option HashStore) (configName actionType : String)
    (now : Int) :
    recordAction (.error e) saveErr store file configName actionType now =
      (store, file, some e) :=
  rfl

/-- C6: with hash-check enabled, a fingerprint failure during the decision
step yields a copy (the error never suppresses the backup); a skip happens
exactly when fingerprinting succeeds and the result equals the stored
record's hash; and a missing prior record yields a copy. -/
theorem decision_hash_failure_copies (currentHash : Except String String)
    (store : HashStore) (configName : String) :
    (∀ e, currentHash = .error e →
      backupDecision true currentHash store configName = .copy) ∧
    (backupDecision true currentHash store configName = .skip ↔
      ∃ h st, currentHash = .ok h ∧ store configName = some st ∧ h = st.lastHash) ∧
    (store configName = none →
      backupDecision true currentHash store configName = .copy) := by
  unfold backupDecision shouldSkipBackup
  cases currentHash with
  | error e => simp
  | ok h =>
    cases hst : store configName with
    | none => simp
    | some st =>
      by_cases hh : h = st.lastHash
      · simp [hh]
      · simp [hh, beq_eq_false_iff_ne.mpr hh]

/-- Witness for C6 at a concrete input: a hash failure on the empty store
produces a copy decision. -/
theorem decision_hash_failure_copies_witness :
    backupDecision true (.error "io") emptyStore "job" = .copy :=
  (decision_hash_failure_copies (.error "io") emptyStore "job").1 "io" rfl

/-- C5: a tick that performs a copy leaves the status table and the action
store untouched and returns the error whenever directory creation, the tree
copy, or the retention step fails; only when all three succeed are the
status (and, with hash-check on and a successful record hash, the store
entry) updated. -/
theorem performBackup_failure_preserves_state (configName : String)
    (scheduleMinutes : Int) (hashEnabled : Bool)
    (mkdirErr copyErr cleanupErr : Option String)
    (recordHash : Except String String) (saveErr : Option String)
    (now : Int) (s : SysState) :
    (∀ e, mkdirErr = some e →
      performBackup configName scheduleMinutes hashEnabled mkdirErr copyErr
          cleanupErr recordHash saveErr now s =
        (s, some ("failed to create backup directory: " ++ e))) ∧
    (∀ e, mkdirErr = none → copyErr = some e →
      performBackup configName scheduleMinutes hashEnabled mkdirErr copyErr
          cleanupErr recordHash saveErr now s =
        (s, some ("failed to copy files: " ++ e))) ∧
    (∀ e, mkdirErr = none → copyErr = none → cleanupErr = some e →
      performBackup configName scheduleMinutes hashEnabled mkdirErr copyErr
          cleanupErr recordHash saveErr now s =
        (s, some ("failed to cleanup old backups: " ++ e))) ∧
    (mkdirErr = none → copyErr = none → cleanupErr = none →
      (performBackup configName scheduleMinutes hashEnabled mkdirErr copyErr
          cleanupErr recordHash saveErr now s).2 = none ∧
      (performBackup configName scheduleMinutes hashEnabled mkdirErr copyErr
          cleanupErr recordHash saveErr now s).1.status configName =
        some (now, now + scheduleMinutes * 60) ∧
      (hashEnabled = false →
        (performBackup configName scheduleMinutes hashEnabled mkdirErr copyErr
            cleanupErr recordHash saveErr now s).1.store = s.store) ∧
      (hashEnabled = true → ∀ h, recordHash = .ok h →
        (performBackup configName scheduleMinutes hashEnabled mkdirErr copyErr
            cleanupErr recordHash saveErr now s).1.store configName =
          some ⟨h, "backup", now⟩)) := by
  refine ⟨?_, ?_, ?_, ?_⟩
  · rintro e rfl; rfl
  · rintro e rfl rfl; rfl
  · rintro e rfl rfl rfl; rfl
  · rintro rfl rfl rfl
    refine ⟨?_, ?_, ?_, ?_⟩
    · cases hashEnabled <;> rfl
    · cases hashEnabled
      · simp [performBackup, updateBackupCompleted]
      · cases recordHash <;> cases saveErr <;>
          simp [performBackup, recordAction, updateBackupCompleted]
    · rintro rfl; rfl
    · rintro rfl h rfl
      cases saveErr <;> simp [performBackup, recordAction]

/-- Witness for C5 at a concrete input: a failing tree copy returns the
error with the state unchanged. -/
theorem performBackup_failure_preserves_state_witness :
    performBackup "job" 30 true none (some "disk full") none (.ok "h") none
        100 sampleState =
      (sampleState, some ("failed to copy files: " ++ "disk full")) :=
  (performBackup_failure_preserves_state "job" 30 true none (some "disk full")
    none (.ok "h") none 100 sampleState).2.1 "disk full" rfl rfl

/-- C1: startup recovery.  Hash-check disabled, a last action that is not a
skip (a copy or no record at all), or a hash failure over a skip record all
make the effective last-action time the latest on-disk snapshot time; a skip
record with a non-zero timestamp keeps its own timestamp when the
recomputed fingerprint still matches and becomes unknown (zero) when it
differs; the first-backup delay is `max 0 (interval - (now - elt))`, or `0`
when the effective time is unknown. -/
theorem startup_recovery_elt (hashEnabled : Bool) (store : HashStore)
    (configName : String) (currentHash : Except String String)
    (lastBackupTime now scheduleInterval : Int) :
    (hashEnabled = false →
      computeEffectiveLastTime hashEnabled store configName currentHash
        lastBackupTime = lastBackupTime) ∧
    (getLastActionType store configName = "backup" →
      computeEffectiveLastTime hashEnabled store configName currentHash
        lastBackupTime = lastBackupTime) ∧
    (store configName = none →
      computeEffectiveLastTime hashEnabled store configName currentHash
        lastBackupTime = lastBackupTime) ∧
    (hashEnabled = true → getLastActionType store configName = "skipped" →
      getLastActionTime store configName ≠ 0 →
      ((∀ e, currentHash = .error e →
        computeEffectiveLastTime hashEnabled store configName currentHash
          lastBackupTime = lastBackupTime) ∧
       (∀ h st, currentHash = .ok h → store configName = some st →
        (h = st.lastHash →
          computeEffectiveLastTime hashEnabled store configName currentHash
            lastBackupTime = getLastActionTime store configName) ∧
        (h ≠ st.lastHash →
          computeEffectiveLastTime hashEnabled store configName currentHash
            lastBackupTime = 0)))) ∧
    (∀ elt, firstBackupDelay elt now scheduleInterval =
      if elt = 0 then 0 else max 0 (scheduleInterval - (now - elt))) := by
  refine ⟨?_, ?_, ?_, ?_, ?_⟩
  · rintro rfl; rfl
  · intro htype
    unfold computeEffectiveLastTime
    cases hashEnabled
    · rfl
    · rw [if_pos rfl, if_neg (by rw [htype]; simp)]
  · intro hnone
    unfold computeEffectiveLastTime
    cases hashEnabled
    · rfl
    · rw [if_pos rfl,
        if_neg (by unfold getLastActionTime; rw [hnone]; simp)]
  · rintro rfl htype htime
    constructor
    · rintro e rfl
      unfold computeEffectiveLastTime
      rw [if_pos rfl, if_pos ⟨htype, htime⟩]
      rfl
    · rintro h st rfl hst
      constructor
      · intro hh
        unfold computeEffectiveLastTime
        rw [if_pos rfl, if_pos ⟨htype, htime⟩]
        unfold shouldSkipBackup
        rw [hst]
        simp [hh]
      · intro hh
        unfold computeEffectiveLastTime
        rw [if_pos rfl, if_pos ⟨htype, htime⟩]
        unfold shouldSkipBackup
        rw [hst]
        simp [beq_eq_false_iff_ne.mpr hh]
  · intro elt
    unfold firstBackupDelay
    split
    · rfl
    · split <;> omega

/-- Witness for C1 at a concrete input: a skip record half an interval old
with an unchanged fingerprint gives that skip time as the effective time. -/
theorem startup_recovery_elt_witness :
    computeEffectiveLastTime true
      (fun n => if n = "job" then some ⟨"h1", "skipped", 50⟩ else none)
      "job" (.ok "h1") 40 = getLastActionTime
        (fun n => if n = "job" then some ⟨"h1", "skipped", 50⟩ else none) "job" :=
  (((startup_recovery_elt true
      (fun n => if n = "job" then some ⟨"h1", "skipped", 50⟩ else none)
      "job" (.ok "h1") 40 100 60).2.2.2.1 rfl (by decide) (by decide)).2
    "h1" ⟨"h1", "skipped", 50⟩ rfl (by decide)).1 rfl

/-- C8: with hash-check enabled and the source tree unchanged (every
fingerprint computation of the window returning the same value `hv`, and
the first tick completing), the decision step of the second tick is a skip,
whether the first tick copied or skipped. -/
theorem second_decision_skips (configName : String) (scheduleMinutes : Int)
    (hv : String) (saveErr : Option String) (now1 : Int) (s : SysState) :
    backupDecision true (.ok hv)
      ((executeBackup configName scheduleMinutes true (.ok hv) (.ok hv) saveErr
        none none none now1 s).1).store configName = .skip := by
  unfold executeBackup
  cases hdec : backupDecision true (.ok hv) s.store configName with
  | skip =>
    cases saveErr <;>
      simp [recordAction, backupDecision, shouldSkipBackup]
  | copy =>
    cases saveErr <;>
      simp [performBackup, recordAction, backupDecision, shouldSkipBackup,
        updateBackupCompleted]

instance : IsTotal DirEntry (fun a b => dtLeP a.modTime b.modTime) :=
  ⟨fun a b => by unfold dtLeP dtLtP; omega⟩

instance : IsTrans DirEntry (fun a b => dtLeP a.modTime b.modTime) :=
  ⟨fun a b c hab hbc => by unfold dtLeP dtLtP at *; omega⟩

theorem deleteOldest_all_ok (removeErr : String → Option String) :
    ∀ l : List DirEntry, (∀ e ∈ l, removeErr e.name = none) →
      deleteOldest removeErr l = .ok l := by
  intro l h
  induction l with
  | nil => rfl
  | cons e rest ih =>
    unfold deleteOldest
    rw [h e (by simp), ih (fun x hx => h x (by simp [hx]))]

theorem deleteOldest_first_error (removeErr : String → Option String) :
    ∀ (pre : List DirEntry) (e : DirEntry) (post : List DirEntry) (err : String),
      (∀ x ∈ pre, removeErr x.name = none) → removeErr e.name = some err →
      deleteOldest removeErr (pre ++ e :: post) = .error err := by
  intro pre
  induction pre with
  | nil =>
    intro e post err _ he
    rw [List.nil_append]
    unfold deleteOldest
    rw [he]
  | cons x xs ih =>
    intro e post err hpre he
    rw [List.cons_append]
    simp only [deleteOldest]
    rw [hpre x (by simp), ih e post err (fun y hy => hpre y (by simp [hy])) he]

/-- C2: retention.  With `N` qualifying snapshots and retention count `R`:
nothing is deleted when `N ≤ R`; when `N > R`, on success exactly the
`N - R` snapshots oldest by modification time are deleted (oldest first),
exactly `R` remain, and every kept snapshot's modification time is at least
every deleted one's; the first deletion error aborts the pass and is
returned. -/
theorem cleanup_retention (entries : List DirEntry) (sourceFolderName : String)
    (rotationCount : Nat) (removeErr : String → Option String)
    (qual sorted : List DirEntry)
    (hqual : qual = entries.filter
      (fun e => e.isDir && isBackupDirectory e.name sourceFolderName))
    (hsorted : sorted = List.insertionSort
      (fun a b => dtLeP a.modTime b.modTime) qual) :
    (qual.length ≤ rotationCount →
      cleanupOldBackups entries sourceFolderName rotationCount removeErr = .ok []) ∧
    (rotationCount < qual.length →
      ((∀ e ∈ sorted.take (qual.length - rotationCount), removeErr e.name = none) →
        cleanupOldBackups entries sourceFolderName rotationCount removeErr =
          .ok (sorted.take (qual.length - rotationCount)) ∧
        (sorted.take (qual.length - rotationCount)).length =
          qual.length - rotationCount ∧
        (sorted.drop (qual.length - rotationCount)).length = rotationCount ∧
        (∀ d ∈ sorted.take (qual.length - rotationCount),
          ∀ k ∈ sorted.drop (qual.length - rotationCount),
            dtLeP d.modTime k.modTime)) ∧
      (∀ pre e post err,
        sorted.take (qual.length - rotationCount) = pre ++ e :: post →
        (∀ x ∈ pre, removeErr x.name = none) → removeErr e.name = some err →
        cleanupOldBackups entries sourceFolderName rotationCount removeErr =
          .error err)) := by
  have hlen : sorted.length = qual.length := by
    rw [hsorted, List.length_insertionSort]
  constructor
  · intro hle
    unfold cleanupOldBackups
    rw [← hqual, if_pos hle]
  · intro hgt
    have hsortedPW : List.Pairwise (fun a b => dtLeP a.modTime b.modTime) sorted := by
      rw [hsorted]
      exact List.sorted_insertionSort _ qual
    constructor
    · intro hok
      have hres : cleanupOldBackups entries sourceFolderName rotationCount removeErr =
          .ok (sorted.take (qual.length - rotationCount)) := by
        unfold cleanupOldBackups
        rw [← hqual, if_neg (by omega), ← hsorted]
        simp only [hlen]
        exact deleteOldest_all_ok removeErr _ hok
      refine ⟨hres, ?_, ?_, ?_⟩
      · rw [List.length_take]
        omega
      · rw [List.length_drop]
        omega
      · intro d hd k hk
        have hsplit := hsortedPW
        rw [← List.take_append_drop (qual.length - rotationCount) sorted] at hsplit
        exact (List.pairwise_append.mp hsplit).2.2 d hd k hk
    · intro pre e post err hdecomp hpre he
      unfold cleanupOldBackups
      rw [← hqual, if_neg (by omega), ← hsorted]
      simp only [hlen, hdecomp]
      exact deleteOldest_first_error removeErr pre e post err hpre he

/-- Witness for C2 at a concrete input: two qualifying snapshots with
retention count one delete exactly the older one. -/
theorem cleanup_retention_witness :
    cleanupOldBackups
        [⟨"03-01-2025_00-00-00_data", true, ⟨2025, 1, 3, 0, 0, 0⟩⟩,
         ⟨"02-01-2025_00-00-00_data", true, ⟨2025, 1, 2, 0, 0, 0⟩⟩]
        "data" 1 (fun _ => none) =
      .ok [⟨"02-01-2025_00-00-00_data", true, ⟨2025, 1, 2, 0, 0, 0⟩⟩] :=
  (((cleanup_retention
      [⟨"03-01-2025_00-00-00_data", true, ⟨2025, 1, 3, 0, 0, 0⟩⟩,
       ⟨"02-01-2025_00-00-00_data", true, ⟨2025, 1, 2, 0, 0, 0⟩⟩]
      "data" 1 (fun _ => none) _ _ rfl rfl).2 (by decide)).1
    (fun e _ => rfl)).1

/-- C3 counterexample: on a qualifying snapshot directory whose filesystem
modification time differs from the timestamp encoded in its name, the
scheduling fallback `findLastBackupTime` does not return the maximum of the
modification times (it returns the name-parsed timestamp instead). -/
theorem findLastBackupTime_ne_spec :
    findLastBackupTime
        [⟨"02-01-2025_00-00-00_data", true, ⟨2030, 5, 5, 0, 0, 0⟩⟩] "data" ≠
      latestSnapshotTimeSpec
        [⟨"02-01-2025_00-00-00_data", true, ⟨2030, 5, 5, 0, 0, 0⟩⟩] "data" := by
  decide

theorem foldl_lastBackupStep_inv (sourceFolderName : String) :
    ∀ (entries : List DirEntry) (acc : DateTime),
      (entries.foldl (lastBackupStep sourceFolderName) acc = acc ∨
        entries.foldl (lastBackupStep sourceFolderName) acc ∈
          parsedBackupTimes entries sourceFolderName) ∧
      ¬ dtLtP (entries.foldl (lastBackupStep sourceFolderName) acc) acc ∧
      ∀ t ∈ parsedBackupTimes entries sourceFolderName,
        ¬ dtLtP (entries.foldl (lastBackupStep sourceFolderName) acc) t := by
  intro entries
  induction entries with
  | nil =>
    intro acc
    exact ⟨Or.inl rfl, dtLtP_irrefl acc, by simp [parsedBackupTimes]⟩
  | cons e rest ih =>
    intro acc
    rw [List.foldl_cons]
    by_cases hq : (e.isDir && isBackupDirectory e.name sourceFolderName) = true
    · rw [Bool.and_eq_true] at hq
      obtain ⟨hq1, hq2⟩ := hq
      cases hp : parseBackupTimestamp e.name sourceFolderName with
      | none =>
        have hstep : lastBackupStep sourceFolderName acc e = acc := by
          simp [lastBackupStep, hq1, hq2, hp]
        have hpar : parsedBackupTimes (e :: rest) sourceFolderName =
            parsedBackupTimes rest sourceFolderName := by
          simp [parsedBackupTimes, List.filterMap_cons, hq1, hq2, hp]
        rw [hstep, hpar]
        exact ih acc
      | some t =>
        by_cases hz : t = zeroTime
        · have hstep : lastBackupStep sourceFolderName acc e = acc := by
            simp [lastBackupStep, hq1, hq2, hp, hz]
          have hpar : parsedBackupTimes (e :: rest) sourceFolderName =
              parsedBackupTimes rest sourceFolderName := by
            simp [parsedBackupTimes, List.filterMap_cons, hq1, hq2, hp, hz]
          rw [hstep, hpar]
          exact ih acc
        · have hpar : parsedBackupTimes (e :: rest) sourceFolderName =
              t :: parsedBackupTimes rest sourceFolderName := by
            simp [parsedBackupTimes, List.filterMap_cons, hq1, hq2, hp, hz]
          by_cases haf : dtAfter t acc
          · have hstep : lastBackupStep sourceFolderName acc e = t := by
              simp [lastBackupStep, hq1, hq2, hp, hz, haf]
            rw [hstep, hpar]
            obtain ⟨hmem, hnlt, hall⟩ := ih t
            refine ⟨?_, ?_, ?_⟩
            · rcases hmem with h | h
              · exact Or.inr (by rw [h]; exact List.mem_cons_self t _)
              · exact Or.inr (List.mem_cons_of_mem t h)
            · intro hcon
              exact hnlt (dtLtP_trans hcon haf)
            · intro u hu
              rcases List.mem_cons.mp hu with rfl | hu
              · exact hnlt
              · exact hall u hu
          · have hstep : lastBackupStep sourceFolderName acc e = acc := by
              simp [lastBackupStep, hq1, hq2, hp, hz, haf]
            rw [hstep, hpar]
            obtain ⟨hmem, hnlt, hall⟩ := ih acc
            refine ⟨hmem.imp id (List.mem_cons_of_mem t), hnlt, ?_⟩
            intro u hu
            rcases List.mem_cons.mp hu with rfl | hu
            · intro hcon
              exact hnlt (dtLtP_of_lt_of_not_lt hcon haf)
            · exact hall u hu
    · have hstep : lastBackupStep sourceFolderName acc e = acc := by
        simp only [lastBackupStep]
        rw [if_neg (by simpa using hq)]
      have hpar : parsedBackupTimes (e :: rest) sourceFolderName =
          parsedBackupTimes rest sourceFolderName := by
        simp only [parsedBackupTimes, List.filterMap_cons]
        rw [if_neg (by simpa using hq)]
      rw [hstep, hpar]
      exact ih acc

/-- C3 amended: the scheduling fallback `findLastBackupTime` is a maximum
of the non-zero timestamps parsed from the qualifying directories' names —
not of the filesystem modification times — and is the zero time when no
qualifying directory yields such a timestamp greater than the zero time. -/
theorem findLastBackupTime_max_parsed (entries : List DirEntry)
    (sourceFolderName : String) :
    (findLastBackupTime entries sourceFolderName = zeroTime ∨
      findLastBackupTime entries sourceFolderName ∈
        parsedBackupTimes entries sourceFolderName) ∧
    ∀ t ∈ parsedBackupTimes entries sourceFolderName,
      ¬ dtLtP (findLastBackupTime entries sourceFolderName) t := by
  obtain ⟨hmem, _, hall⟩ := foldl_lastBackupStep_inv sourceFolderName entries zeroTime
  exact ⟨hmem, hall⟩

/-- Witness for C3 amended at a concrete input: the name-parsed timestamp
list of a single qualifying entry contains one element and the fold result
is not chronologically before it. -/
theorem findLastBackupTime_max_parsed_witness :
    ⟨2025, 1, 2, 0, 0, 0⟩ ∈ parsedBackupTimes
        [⟨"02-01-2025_00-00-00_data", true, zeroTime⟩] "data" ∧
    ¬ dtLtP (findLastBackupTime
        [⟨"02-01-2025_00-00-00_data", true, zeroTime⟩] "data")
      ⟨2025, 1, 2, 0, 0, 0⟩ :=
  ⟨by decide,
    (findLastBackupTime_max_parsed
        [⟨"02-01-2025_00-00-00_data", true, zeroTime⟩] "data").2
      ⟨2025, 1, 2, 0, 0, 0⟩ (by decide)⟩

theorem lex_cons_iff_char {a b : Char} {l₁ l₂ : List Char} :
    List.Lex (· < ·) (a :: l₁) (b :: l₂) ↔
      a < b ∨ (a = b ∧ List.Lex (· < ·) l₁ l₂) := by
  constructor
  · intro h
    cases h with
    | cons h => exact Or.inr ⟨rfl, h⟩
    | rel h => exact Or.inl h
  · rintro (h | ⟨rfl, h⟩)
    · exact List.Lex.rel h
    · exact List.Lex.cons h

theorem lex_strip {c : Char} {l₁ l₂ : List Char} :
    List.Lex (· < ·) (c :: l₁) (c :: l₂) ↔ List.Lex (· < ·) l₁ l₂ := by
  rw [lex_cons_iff_char]
  simp [lt_irrefl]

theorem lex_append_same (c : List Char) {l₁ l₂ : List Char} :
    List.Lex (· < ·) (c ++ l₁) (c ++ l₂) ↔ List.Lex (· < ·) l₁ l₂ := by
  induction c with
  | nil => simp
  | cons a c ih =>
    rw [List.cons_append, List.cons_append, lex_strip]
    exact ih

theorem lex_irrefl_char (l : List Char) : ¬ List.Lex (· < ·) l l := by
  induction l with
  | nil => exact List.Lex.not_nil_right _ _
  | cons a l ih =>
    rw [lex_strip]
    exact ih

theorem toDigit_lt_iff {d e : Nat} (hd : d ≤ 9) (he : e ≤ 9) :
    toDigit d < toDigit e ↔ d < e := by
  have H : ∀ d, d < 10 → ∀ e, e < 10 → (toDigit d < toDigit e ↔ d < e) := by decide
  exact H d (by omega) e (by omega)

theorem toDigit_eq_iff {d e : Nat} (hd : d ≤ 9) (he : e ≤ 9) :
    toDigit d = toDigit e ↔ d = e := by
  have H : ∀ d, d < 10 → ∀ e, e < 10 → (toDigit d = toDigit e ↔ d = e) := by decide
  exact H d (by omega) e (by omega)

theorem lex_pad2 {a b : Nat} (ha : a ≤ 99) (hb : b ≤ 99) {r₁ r₂ : List Char} :
    List.Lex (· < ·) (pad2 a ++ r₁) (pad2 b ++ r₂) ↔
      a < b ∨ (a = b ∧ List.Lex (· < ·) r₁ r₂) := by
  have h1 : a / 10 ≤ 9 := by omega
  have h2 : b / 10 ≤ 9 := by omega
  have h3 : a % 10 ≤ 9 := by omega
  have h4 : b % 10 ≤ 9 := by omega
  simp only [pad2, List.cons_append, List.nil_append]
  rw [lex_cons_iff_char, lex_cons_iff_char, toDigit_lt_iff h1 h2,
    toDigit_eq_iff h1 h2, toDigit_lt_iff h3 h4, toDigit_eq_iff h3 h4]
  constructor
  · rintro (h | ⟨h10, (h | ⟨hm1, hl⟩)⟩)
    · exact Or.inl (by omega)
    · exact Or.inl (by omega)
    · exact Or.inr ⟨by omega, hl⟩
  · rintro (h | ⟨rfl, hl⟩)
    · rcases Nat.lt_or_ge (a / 10) (b / 10) with h10 | h10
      · exact Or.inl h10
      · exact Or.inr ⟨by omega, Or.inl (by omega)⟩
    · exact Or.inr ⟨rfl, Or.inr ⟨rfl, hl⟩⟩

theorem generateBackupDirName_toList (sourcePath : String) (t : DateTime) :
    (generateBackupDirName sourcePath t).toList =
      formatTimestamp t ++ '_' :: (getSourceFolderName sourcePath).toList :=
  rfl

/-- C4 counterexample: 2 January 2025 precedes 1 February 2025
chronologically, yet the generated name of the earlier instant is lexically
greater (the DD-MM-YYYY order puts the day first). -/
theorem name_order_counterexample :
    dtLtP ⟨2025, 1, 2, 0, 0, 0⟩ ⟨2025, 2, 1, 0, 0, 0⟩ ∧
    ¬ (generateBackupDirName "/data" ⟨2025, 1, 2, 0, 0, 0⟩ <
        generateBackupDirName "/data" ⟨2025, 2, 1, 0, 0, 0⟩) := by
  refine ⟨by decide, ?_⟩
  rw [String.lt_iff_toList_lt]
  decide

/-- C4 amended: for two instants of the same calendar month (with in-range
day and time-of-day fields), the generated snapshot names compare lexically
exactly as the instants compare chronologically; across month or year
boundaries the DD-MM-YYYY ordering breaks this coincidence. -/
theorem name_order_same_month (sourcePath : String) (t₁ t₂ : DateTime)
    (hy : t₁.year = t₂.year) (hm : t₁.month = t₂.month)
    (hd1 : t₁.day ≤ 31) (hd2 : t₂.day ≤ 31)
    (hh1 : t₁.hour ≤ 23) (hh2 : t₂.hour ≤ 23)
    (hn1 : t₁.minute ≤ 59) (hn2 : t₂.minute ≤ 59)
    (hs1 : t₁.second ≤ 59) (hs2 : t₂.second ≤ 59) :
    generateBackupDirName sourcePath t₁ < generateBackupDirName sourcePath t₂ ↔
      dtLtP t₁ t₂ := by
  have hconv : ∀ l l' : List Char, l < l' ↔ List.Lex (· < ·) l l' :=
    fun l l' => Iff.rfl
  rw [String.lt_iff_toList_lt, hconv,
    generateBackupDirName_toList, generateBackupDirName_toList]
  simp only [formatTimestamp, List.append_assoc, List.cons_append]
  rw [hy, hm]
  rw [lex_pad2 (by omega : t₁.day ≤ 99) (by omega : t₂.day ≤ 99)]
  rw [lex_strip, lex_append_same, lex_strip, lex_append_same, lex_strip]
  rw [lex_pad2 (by omega : t₁.hour ≤ 99) (by omega : t₂.hour ≤ 99)]
  rw [lex_strip]
  rw [lex_pad2 (by omega : t₁.minute ≤ 99) (by omega : t₂.minute ≤ 99)]
  rw [lex_strip]
  rw [lex_pad2 (by omega : t₁.second ≤ 99) (by omega : t₂.second ≤ 99)]
  rw [iff_false_intro (lex_irrefl_char
    ('_' :: (getSourceFolderName sourcePath).toList))]
  unfold dtLtP
  rw [hy, hm]
  simp [lt_irrefl]

/-- Witness for C4 amended at concrete inputs: within January 2025 the
name of the 2nd sorts lexically before the name of the 3rd. -/
theorem name_order_same_month_witness :
    generateBackupDirName "/data" ⟨2025, 1, 2, 0, 0, 0⟩ <
      generateBackupDirName "/data" ⟨2025, 1, 3, 0, 0, 0⟩ :=
  (name_order_same_month "/data" ⟨2025, 1, 2, 0, 0, 0⟩ ⟨2025, 1, 3, 0, 0, 0⟩
    rfl rfl (by decide) (by decide) (by decide) (by decide) (by decide)
    (by decide) (by decide) (by decide)).mpr (by decide)

end SimpleFolderBackup
